import Mathlib

/-!
Verification of the AI-Voice-Agent websocket relay.

The development shallowly embeds the two core modules of the repository:

* `src/voice_agent/openai_client.py` — `OpenAIRealtimeClient`, a thin
  stateful wrapper around one outbound websocket connection;
* `src/voice_agent/signalwire_bridge.py` — `SignalWireRealtimeBridge`,
  which runs two concurrent loops (telephony to AI, AI to telephony)
  over shared session state.

Python dictionaries arriving on the wire are modelled as structures of
optional fields; Python truthiness of strings (both empty string and
missing value are falsy) and the Python `or` operator are modelled
explicitly.  The cooperative concurrency of the two asyncio loops is
modelled as a small-step interleaving semantics driven by an arbitrary
schedule, and the supervisor logic of `run` (asyncio wait with
first-completed semantics, cancellation, scoped close) is modelled as a
separate step system.
-/

namespace VoiceAgent

/-- Python truthiness of an optional string: `None` and the empty string
are falsy, every other string is truthy. -/
def truthy : Option String → Bool
  | none => false
  | some s => s ≠ ""


/-- Python `a or b` on optional strings: returns `a` when `a` is truthy,
otherwise `b` (so a present-but-empty string falls through to `b`). -/
def pyOr (a b : Option String) : Option String :=
  if truthy a then a else b


/-! ## Wire messages -/

/-- Nested `media` object of an inbound telephony frame: may or may not
carry a `payload` field. -/
structure MediaField where
  payload : Option String
  deriving DecidableEq


/-- Decoded JSON frame received from the telephony peer.  Each field is
optional because the source probes the dictionary with `get`; both
accepted spellings of the event key (`event` / `type`) and of the stream
identifier key (`streamId` / `stream_id`) are separate fields. -/
structure SWFrame where
  event : Option String
  type_ : Option String
  streamId : Option String
  stream_id : Option String
  media : Option MediaField
  deriving DecidableEq


/-- Message sent by the client to the OpenAI realtime service. -/
inductive OAIMsg where
  | sessionUpdate (voice : String) (instructions : Option String)
  | append (audio : String)
  | commit
  | responseCreate
  deriving DecidableEq


/-- Frame sent by the bridge to the telephony peer: either the ready
acknowledgement or a media frame stamped with the stream id. -/
inductive SWOut where
  | ready
  | media (streamId : String) (payload : String)
  deriving DecidableEq


/-- Nested `delta` object of an AI event: may or may not carry an
`audio` field. -/
structure DeltaField where
  audio : Option String
  deriving DecidableEq


/-- Decoded JSON event received from the OpenAI realtime connection. -/
structure OAIEvent where
  type_ : Option String
  delta : Option DeltaField
  deriving DecidableEq


/-! ## Realtime client (`openai_client.py`) -/

/-- Underlying websocket connection handle with its closed flag
(`self._connection.closed` in the source). -/
structure ConnectionHandle where
  closed : Bool
  deriving DecidableEq


/-- State of `OpenAIRealtimeClient`: the optional connection handle
(`self._connection`). -/
structure OpenAIRealtimeClient where
  connection : Option ConnectionHandle
  deriving DecidableEq


/-- Client state as built by the constructor, before `connect`. -/
def clientNew : OpenAIRealtimeClient := ⟨none⟩


/-- Property `is_connected`: a connection exists and is not closed. -/
def is_connected (c : OpenAIRealtimeClient) : Bool :=
  match c.connection with
  | some h => ¬h.closed
  | none => false


/-- Error message of the `RuntimeError` raised by `send_json` and
`responses` when the client is not connected. -/
def notConnectedError : String := "Realtime client not connected"


/-- Method `close`: closes the underlying connection if it is open, then
drops the handle.  Returns the new client state together with the number
of close calls issued to the underlying connection (0 or 1).  The method
has no failure path. -/
def close (c : OpenAIRealtimeClient) : OpenAIRealtimeClient × Nat :=
  match c.connection with
  | some h => if ¬h.closed then (⟨none⟩, 1) else (⟨none⟩, 0)
  | none => (⟨none⟩, 0)


/-- Method `send_json`: raises the not-connected error when the client
is not connected, otherwise sends exactly the given message. -/
def send_json (c : OpenAIRealtimeClient) (payload : OAIMsg) :
    Except String (List OAIMsg) :=
  if is_connected c then .ok [payload] else .error notConnectedError


/-- Method `send_audio_chunk`: one `input_audio_buffer.append`, followed
by `input_audio_buffer.commit` and `response.create` when `end_of_input`
is true.  The result is the list of messages sent, in order; an error
means the first failing `send_json` raised and nothing further was
sent. -/
def send_audio_chunk (c : OpenAIRealtimeClient) (audio_base64 : String)
    (end_of_input : Bool) : Except String (List OAIMsg) := do
  let m1 ← send_json c (.append audio_base64)
  if end_of_input then
    let m2 ← send_json c .commit
    let m3 ← send_json c .responseCreate
    return m1 ++ m2 ++ m3
  else
    return m1


/-- Method `responses`: iterating the async generator first checks the
connection and raises the not-connected error; when connected it yields
the decoded messages delivered by the connection, in receipt order
(modelled by the `incoming` list). -/
def responses (c : OpenAIRealtimeClient) (incoming : List OAIEvent) :
    Except String (List OAIEvent) :=
  if is_connected c then .ok incoming else .error notConnectedError


/-- Messages `send_audio_chunk` sends when the client is connected. -/
def sendAudioChunkMsgs (audio_base64 : String) (end_of_input : Bool) :
    List OAIMsg :=
  [OAIMsg.append audio_base64] ++
    if end_of_input then [OAIMsg.commit, OAIMsg.responseCreate] else []


/-! ## Bridge (`signalwire_bridge.py`) -/

/-- Session state of `SignalWireRealtimeBridge` shared by the two loops:
the optional stream id (`self._stream_id`) and whether the one-shot
readiness latch (`self._ready`, an asyncio event) has been set. -/
structure BridgeState where
  streamId : Option String
  ready : Bool
  deriving DecidableEq


/-- Bridge state as built by the constructor. -/
def bridgeNew : BridgeState := ⟨none, false⟩


/-- Event discriminator of an inbound frame, as read by the loop:
`payload.get("event") or payload.get("type")`. -/
def eventType (f : SWFrame) : Option String :=
  pyOr f.event f.type_


/-- Stream identifier of an inbound frame, as read by the loop and by
`_on_start`: `payload.get("streamId") or payload.get("stream_id")`. -/
def frameStreamId (f : SWFrame) : Option String :=
  pyOr f.streamId f.stream_id


/-- Method `_on_start`: re-extract the stream id from the payload; when
it is falsy, log and return without touching the state; otherwise store
it, send the ready frame to the telephony peer and set the readiness
latch. -/
def on_start (st : BridgeState) (payload : SWFrame) :
    BridgeState × List SWOut :=
  if ¬truthy (frameStreamId payload) then (st, [])
  else ({ streamId := frameStreamId payload, ready := true }, [SWOut.ready])


/-- Messages `_on_media` sends to the realtime client for one frame when
the client is connected: nothing unless the frame has a `media` object
with a truthy `payload`, in which case one `send_audio_chunk` call with
`end_of_input = false`. -/
def mediaMsgs (payload : SWFrame) : List OAIMsg :=
  match payload.media with
  | none => []
  | some m =>
    match m.payload with
    | none => []
    | some a => if a = "" then [] else sendAudioChunkMsgs a false


/-- One iteration of the `_receive_from_signalwire` loop body on one
decoded frame, with the realtime client connected (as `run` guarantees
inside its scoped connection).  Returns the updated session state, the
frames sent to the telephony peer, the messages sent to the AI service,
and whether the loop exits (`break` on `stop` / `close`).  The `start`
branch first performs the unconditional assignment of the extracted
stream id (line 55 of the source) and then calls `_on_start`. -/
def receiveStep (st : BridgeState) (payload : SWFrame) :
    BridgeState × List SWOut × List OAIMsg × Bool :=
  if eventType payload = some "start" then
    ((on_start { st with streamId := frameStreamId payload } payload).1,
     (on_start { st with streamId := frameStreamId payload } payload).2,
     [], false)
  else if eventType payload = some "media" then
    (st, [], mediaMsgs payload, false)
  else if eventType payload = some "mark" ∨ eventType payload = some "connected" then
    (st, [], [], false)
  else if eventType payload = some "stop" ∨ eventType payload = some "close" then
    (st, [], [OAIMsg.commit, OAIMsg.responseCreate], true)
  else
    (st, [], [], false)


/-- The `_receive_from_signalwire` loop over a list of inbound frames:
processes frames in order until the `stop` / `close` break, or until the
list ends (the telephony websocket disconnected).  Returns the final
session state, all frames sent to the telephony peer and all messages
sent to the AI service, in order. -/
def receiveLoop (st : BridgeState) :
    List SWFrame → BridgeState × List SWOut × List OAIMsg
  | [] => (st, [], [])
  | f :: rest =>
    let p := receiveStep st f
    if p.2.2.2 then (p.1, p.2.1, p.2.2.1)
    else
      let q := receiveLoop p.1 rest
      (q.1, p.2.1 ++ q.2.1, p.2.2.1 ++ q.2.2)


/-- Method `_send_audio_to_signalwire`: when the stream id is falsy the
chunk is ignored, otherwise one `media` frame stamped with the stream id
is sent. -/
def send_audio_to_signalwire (streamId : Option String)
    (audio_base64 : String) : List SWOut :=
  match streamId with
  | none => []
  | some s => if s = "" then [] else [SWOut.media s audio_base64]


/-- One iteration of the `_forward_openai_responses` loop body on one
decoded AI event (after the readiness wait): an audio delta event with a
truthy `audio` is handed to `_send_audio_to_signalwire`; completion and
error events are only logged; other events are ignored. -/
def forwardStep (st : BridgeState) (event : OAIEvent) : List SWOut :=
  if event.type_ = some "response.output_audio.delta" then
    let delta := event.delta.getD ⟨none⟩
    match delta.audio with
    | none => []
    | some a => if a = "" then [] else send_audio_to_signalwire st.streamId a
  else []


/-- The body of `_forward_openai_responses` after the readiness wait,
iterated over a list of AI events with a fixed session state (the
inbound loop writes the state only at `start`). -/
def forwardLoop (st : BridgeState) : List OAIEvent → List SWOut
  | [] => []
  | e :: rest => forwardStep st e ++ forwardLoop st rest


/-! ## Frame classification helpers used by the theorems -/

/-- Whether a frame is dispatched to the `stop` / `close` branch. -/
def isStop (f : SWFrame) : Bool :=
  decide (eventType f = some "stop" ∨ eventType f = some "close")


/-- Whether a frame is a `start` event whose extracted stream id is
truthy, i.e. triggers the transition to Ready. -/
def isValidStart (f : SWFrame) : Bool :=
  decide (eventType f = some "start") && truthy (frameStreamId f)


/-- The audio payload a frame contributes to the AI service: the nested
truthy `media.payload` of a `media` event, nothing otherwise. -/
def mediaPayload (f : SWFrame) : Option String :=
  if eventType f = some "media" then
    match f.media with
    | none => none
    | some m =>
      match m.payload with
      | none => none
      | some a => if a = "" then none else some a
  else none


/-- The audio chunk an AI event contributes to the telephony peer: the
truthy `delta.audio` of an audio delta event, nothing otherwise. -/
def deltaPayload (e : OAIEvent) : Option String :=
  if e.type_ = some "response.output_audio.delta" then
    match (e.delta.getD ⟨none⟩).audio with
    | none => none
    | some a => if a = "" then none else some a
  else none


/-- All messages the inbound loop sends to the AI service on a given
frame list: one append per truthy media payload before the first
`stop` / `close`, in arrival order, then the commit / response-create
flush when a `stop` / `close` is reached. -/
def inboundSends (frames : List SWFrame) : List OAIMsg :=
  ((frames.takeWhile fun f => !isStop f).filterMap mediaPayload).map
      OAIMsg.append ++
    if frames.any isStop then [OAIMsg.commit, OAIMsg.responseCreate] else []


/-! ## Interleaved execution of the two loops

The two tasks started by `run` are modelled as a small-step system: a
schedule is a list of booleans, `true` meaning the inbound receiver task
runs its next step, `false` meaning the outbound forwarder task runs its
next step.  A step of a task that is blocked (forwarder before
readiness) or finished changes nothing, which models suspension. -/

/-- Whether an outbound frame is a `media` frame. -/
def isMediaOut : SWOut → Bool
  | .media _ _ => true
  | .ready => false


/-- Whether a list of outbound frames contains no `media` frame. -/
def mediaFree (l : List SWOut) : Bool :=
  l.all fun o => !isMediaOut o


/-- Joint state of the bridge session, the two inbound queues (frames
still to be delivered by each websocket) and the two output logs, plus
the control position of each loop. -/
structure SysState where
  streamId : Option String
  ready : Bool
  swIn : List SWFrame
  oaiIn : List OAIEvent
  swOut : List SWOut
  oaiOut : List OAIMsg
  recvDone : Bool
  fwdWaiting : Bool
  fwdDone : Bool
  deriving DecidableEq


/-- The session state embedded in the joint state. -/
def bridgeOf (st : SysState) : BridgeState :=
  ⟨st.streamId, st.ready⟩


/-- One scheduled step.  Receiver turn: deliver the next inbound frame
to the loop body, or finish on disconnect (empty queue).  Forwarder
turn: while the readiness latch is unset the task stays suspended in
`self._ready.wait()`; once set it consumes AI events one at a time, and
finishes when the AI connection yields no more events. -/
def sysStep (st : SysState) (receiverTurn : Bool) : SysState :=
  if receiverTurn then
    if st.recvDone then st
    else
      match st.swIn with
      | [] => { st with recvDone := true }
      | f :: rest =>
        { st with
          streamId := (receiveStep (bridgeOf st) f).1.streamId,
          ready := (receiveStep (bridgeOf st) f).1.ready,
          swIn := rest,
          swOut := st.swOut ++ (receiveStep (bridgeOf st) f).2.1,
          oaiOut := st.oaiOut ++ (receiveStep (bridgeOf st) f).2.2.1,
          recvDone := (receiveStep (bridgeOf st) f).2.2.2 }
  else
    if st.fwdDone then st
    else if st.fwdWaiting then
      (if st.ready then { st with fwdWaiting := false } else st)
    else
      match st.oaiIn with
      | [] => { st with fwdDone := true }
      | e :: rest =>
        { st with oaiIn := rest,
                  swOut := st.swOut ++ forwardStep (bridgeOf st) e }


/-- Run the interleaved system under a schedule. -/
def runSchedule (st : SysState) : List Bool → SysState
  | [] => st
  | c :: cs => runSchedule (sysStep st c) cs


/-- Initial joint state for one call: fresh session, both loops at their
first suspension point, nothing sent yet. -/
def initSys (swIn : List SWFrame) (oaiIn : List OAIEvent) : SysState :=
  { streamId := none, ready := false, swIn := swIn, oaiIn := oaiIn,
    swOut := [], oaiOut := [], recvDone := false, fwdWaiting := true,
    fwdDone := false }


/-- Inductive invariant for the readiness gate: the forwarder has left
its wait only if the latch is set, and while the latch is unset no media
frame has been sent to the telephony peer. -/
def SysInv (st : SysState) : Prop :=
  (st.fwdWaiting = false → st.ready = true) ∧
  (st.ready = false → mediaFree st.swOut = true)


/-! ## Supervisor contract of `run`

The body of `run` after accepting the connection is: start the two
tasks, `asyncio.wait` for the first completion, request cancellation of
every pending task, and re-raise the exception of a completed task if
there is one; the surrounding scoped connection calls `close` exactly
once on the way out.  This is modelled as its own step system, where
each loop is abstracted to the sequence of loop iterations it would run,
each iteration either returning normally or raising.  Cancellation is a
request: a cancel-requested task actually stops only the next time the
scheduler runs it, as in asyncio. -/

/-- One iteration of a loop body: it either completes normally or
raises the given error. -/
inductive LoopStep where
  | ok
  | err (e : String)
  deriving DecidableEq


/-- Status of one of the two tasks. -/
inductive TaskStatus where
  | running
  | doneClean
  | doneErr (e : String)
  | cancelRequested
  | cancelled
  deriving DecidableEq


/-- A task is done, in the sense of `asyncio.wait`, when it completed
on its own (cancellation does not count: `run` never observes it). -/
def TaskStatus.isDone : TaskStatus → Bool
  | doneClean => true
  | doneErr _ => true
  | _ => false


/-- A task has stopped when it no longer executes: it completed or its
cancellation was delivered. -/
def TaskStatus.stopped : TaskStatus → Bool
  | doneClean => true
  | doneErr _ => true
  | cancelled => true
  | _ => false


/-- Scheduling a task: a running task consumes its next iteration (or
completes cleanly when none is left); a cancel-requested task receives
the cancellation and stops; a finished task does nothing. -/
def stepTask (steps : List LoopStep) (status : TaskStatus) :
    List LoopStep × TaskStatus :=
  match status with
  | .running =>
    match steps with
    | [] => ([], .doneClean)
    | .ok :: rest => (rest, .running)
    | .err e :: rest => (rest, .doneErr e)
  | .cancelRequested => (steps, .cancelled)
  | s => (steps, s)


/-- Outcome of a task as recorded in the done set of `asyncio.wait`:
present only if the task completed, carrying its optional error. -/
def snapOf : TaskStatus → Option (Option String)
  | .doneClean => some none
  | .doneErr e => some (some e)
  | _ => none


/-- Effect of `task.cancel()` on a pending task. -/
def cancelPending : TaskStatus → TaskStatus
  | .running => .cancelRequested
  | s => s


/-- The first exception found when iterating the done set, as the
`for task in done` loop of `run` does (receiver first). -/
def firstSnapError (snap1 snap2 : Option (Option String)) : Option String :=
  match snap1 with
  | some (some e) => some e
  | _ =>
    match snap2 with
    | some (some e) => some e
    | _ => none


/-- Control position of the supervisor: blocked in `asyncio.wait`;
returned from the wait with the recorded done set, cancellation of the
pending tasks already requested; or exited (through the scoped close)
with the optional re-raised error. -/
inductive SupPhase where
  | waiting
  | afterWait (snap1 snap2 : Option (Option String))
  | finished (raised : Option String)
  deriving DecidableEq


/-- Joint state of `run`: the two tasks and the supervisor, plus the
number of `close` calls made on the realtime client. -/
structure RunState where
  steps1 : List LoopStep
  steps2 : List LoopStep
  status1 : TaskStatus
  status2 : TaskStatus
  phase : SupPhase
  closeCalls : Nat
  deriving DecidableEq


/-- Which coroutine the event loop schedules next. -/
inductive RunChoice where
  | task1
  | task2
  | sup
  deriving DecidableEq


/-- One scheduled step of the `run` system.  The supervisor leaves the
wait as soon as at least one task is done, recording the done set and
requesting cancellation of the others; its next step closes the client
(the scoped connection exit) and re-raises the first recorded error, if
any, without joining the cancelled task. -/
def runStep (st : RunState) : RunChoice → RunState
  | .task1 =>
    { st with
      steps1 := (stepTask st.steps1 st.status1).1,
      status1 := (stepTask st.steps1 st.status1).2 }
  | .task2 =>
    { st with
      steps2 := (stepTask st.steps2 st.status2).1,
      status2 := (stepTask st.steps2 st.status2).2 }
  | .sup =>
    match st.phase with
    | .waiting =>
      if st.status1.isDone ∨ st.status2.isDone then
        { st with
          phase := .afterWait (snapOf st.status1) (snapOf st.status2),
          status1 := cancelPending st.status1,
          status2 := cancelPending st.status2 }
      else st
    | .afterWait s1 s2 =>
      { st with
        phase := .finished (firstSnapError s1 s2),
        closeCalls := st.closeCalls + 1 }
    | .finished _ => st


/-- Run the `run` system under a schedule. -/
def runExec (st : RunState) : List RunChoice → RunState
  | [] => st
  | c :: cs => runExec (runStep st c) cs


/-- Initial state of `run`: both tasks just created, supervisor in the
wait, no close performed. -/
def initRun (s1 s2 : List LoopStep) : RunState :=
  { steps1 := s1, steps2 := s2, status1 := .running, status2 := .running,
    phase := .waiting, closeCalls := 0 }


/-- Inductive invariant of the `run` system, relative to the two
original iteration lists: remaining iterations are suffixes of the
originals, a task error always originates in its own iteration list,
and the supervisor phase determines the close count, that no task is
still running after the wait returned, and where any recorded or raised
error came from. -/
def RunInv (s1 s2 : List LoopStep) (st : RunState) : Prop :=
  List.IsSuffix st.steps1 s1 ∧ List.IsSuffix st.steps2 s2 ∧
  (∀ e, st.status1 = .doneErr e → LoopStep.err e ∈ s1) ∧
  (∀ e, st.status2 = .doneErr e → LoopStep.err e ∈ s2) ∧
  (match st.phase with
   | .waiting => st.closeCalls = 0
   | .afterWait p q =>
     st.closeCalls = 0 ∧ st.status1 ≠ .running ∧ st.status2 ≠ .running ∧
       (∀ e, p = some (some e) → LoopStep.err e ∈ s1) ∧
       (∀ e, q = some (some e) → LoopStep.err e ∈ s2)
   | .finished r =>
     st.closeCalls = 1 ∧ st.status1 ≠ .running ∧ st.status2 ≠ .running ∧
       (∀ e, r = some e → LoopStep.err e ∈ s1 ∨ LoopStep.err e ∈ s2))


/-! ## Concrete wire fixtures used by witnesses and counterexamples -/

/-- Start frame carrying the identifier under the `streamId` key. -/
def startFrame (sid : String) : SWFrame :=
  { event := some "start", type_ := none, streamId := some sid,
    stream_id := none, media := none }

/-- Start frame carrying no stream identifier under either key. -/
def startFrameNoId : SWFrame :=
  { event := some "start", type_ := none, streamId := none,
    stream_id := none, media := none }

/-- Media frame carrying the given base64 payload. -/
def mediaFrame (payload : String) : SWFrame :=
  { event := some "media", type_ := none, streamId := none,
    stream_id := none, media := some ⟨some payload⟩ }

/-- Stop frame ending the call. -/
def stopFrame : SWFrame :=
  { event := some "stop", type_ := none, streamId := none,
    stream_id := none, media := none }

/-- AI audio delta event carrying the given base64 chunk. -/
def deltaEvent (audio : String) : OAIEvent :=
  { type_ := some "response.output_audio.delta", delta := some ⟨some audio⟩ }

/-- Client with an open underlying connection, as after `connect`. -/
def clientConn : OpenAIRealtimeClient := ⟨some ⟨false⟩⟩

/-! ## Theorems -/

theorem send_audio_chunk_connected (c : OpenAIRealtimeClient)
    (h : is_connected c = true) (a : String) (eoi : Bool) :
    send_audio_chunk c a eoi = .ok (sendAudioChunkMsgs a eoi) := by
  cases eoi <;>
    simp [send_audio_chunk, send_json, h, sendAudioChunkMsgs, Bind.bind,
      Except.bind, Pure.pure, Except.pure]


/-! ## Characterization of one inbound-loop iteration -/

theorem receiveStep_char (st : BridgeState) (f : SWFrame) :
    receiveStep st f =
      ((if eventType f = some "start" then
          (if truthy (frameStreamId f) then
            { streamId := frameStreamId f, ready := true }
          else { streamId := frameStreamId f, ready := st.ready })
        else st),
       (if isValidStart f then [SWOut.ready] else []),
       (if isStop f then [OAIMsg.commit, OAIMsg.responseCreate]
        else (mediaPayload f).toList.map OAIMsg.append),
       isStop f) := by
  by_cases e1 : eventType f = some "start"
  · by_cases ht : truthy (frameStreamId f) <;>
      simp [receiveStep, on_start, isStop, isValidStart, mediaPayload, e1, ht]
  · by_cases e2 : eventType f = some "media"
    · rcases hm : f.media with _ | m
      · simp [receiveStep, isStop, isValidStart, mediaPayload, mediaMsgs,
          e1, e2, hm]
      · rcases hp : m.payload with _ | a
        · simp [receiveStep, isStop, isValidStart, mediaPayload, mediaMsgs,
            e1, e2, hm, hp]
        · by_cases ha : a = "" <;>
            simp [receiveStep, isStop, isValidStart, mediaPayload, mediaMsgs,
              sendAudioChunkMsgs, e1, e2, hm, hp, ha]
    · by_cases e3 : eventType f = some "mark"
      · simp [receiveStep, isStop, isValidStart, mediaPayload, e1, e2, e3]
      · by_cases e4 : eventType f = some "connected"
        · simp [receiveStep, isStop, isValidStart, mediaPayload, e1, e2, e3, e4]
        · by_cases e5 : eventType f = some "stop"
          · simp [receiveStep, isStop, isValidStart, mediaPayload,
              e1, e2, e3, e4, e5]
          · by_cases e6 : eventType f = some "close"
            · simp [receiveStep, isStop, isValidStart, mediaPayload,
                e1, e2, e3, e4, e5, e6]
            · simp [receiveStep, isStop, isValidStart, mediaPayload,
                e1, e2, e3, e4, e5, e6]


theorem receiveStep_exit (st : BridgeState) (f : SWFrame) :
    (receiveStep st f).2.2.2 = isStop f := by
  rw [receiveStep_char]


theorem receiveStep_oai (st : BridgeState) (f : SWFrame) :
    (receiveStep st f).2.2.1 =
      if isStop f then [OAIMsg.commit, OAIMsg.responseCreate]
      else (mediaPayload f).toList.map OAIMsg.append := by
  rw [receiveStep_char]


theorem receiveStep_swOut (st : BridgeState) (f : SWFrame) :
    (receiveStep st f).2.1 = if isValidStart f then [SWOut.ready] else [] := by
  rw [receiveStep_char]


theorem receiveStep_state (st : BridgeState) (f : SWFrame) :
    (receiveStep st f).1 =
      if eventType f = some "start" then
        (if truthy (frameStreamId f) then
          { streamId := frameStreamId f, ready := true }
        else { streamId := frameStreamId f, ready := st.ready })
      else st := by
  rw [receiveStep_char]


theorem receiveStep_ready_mono (st : BridgeState) (f : SWFrame)
    (h : st.ready = true) : ((receiveStep st f).1).ready = true := by
  rw [receiveStep_state]
  split_ifs <;> simp [h]


theorem receiveStep_of_stop (st : BridgeState) (f : SWFrame)
    (h : isStop f = true) :
    receiveStep st f = (st, [], [OAIMsg.commit, OAIMsg.responseCreate], true) := by
  have h' : eventType f = some "stop" ∨ eventType f = some "close" := by
    simpa [isStop] using h
  rw [receiveStep_char]
  rcases h' with h' | h' <;> simp [isStop, isValidStart, mediaPayload, h']


/-! ## Characterization of the whole inbound loop -/

theorem receiveLoop_oai_eq (st : BridgeState) (frames : List SWFrame) :
    (receiveLoop st frames).2.2 = inboundSends frames := by
  induction frames generalizing st with
  | nil => simp [receiveLoop, inboundSends]
  | cons f rest ih =>
    cases hstop : isStop f with
    | true =>
      simp [receiveLoop, receiveStep_of_stop st f hstop, inboundSends,
        hstop, List.takeWhile_cons, List.any_cons]
    | false =>
      simp only [receiveLoop, receiveStep_exit, hstop, if_neg Bool.false_ne_true,
        Bool.false_eq_true, ite_false]
      simp [receiveStep_oai, hstop, ih, inboundSends, List.takeWhile_cons,
        List.any_cons]
      cases hm : mediaPayload f <;> simp [hm]


theorem receiveLoop_swOut_eq (st : BridgeState) (frames : List SWFrame) :
    (receiveLoop st frames).2.1 =
      List.replicate
        ((frames.takeWhile fun f => !isStop f).countP fun f => isValidStart f)
        SWOut.ready := by
  induction frames generalizing st with
  | nil => simp [receiveLoop]
  | cons f rest ih =>
    cases hstop : isStop f with
    | true =>
      simp [receiveLoop, receiveStep_of_stop st f hstop, hstop,
        List.takeWhile_cons]
    | false =>
      simp only [receiveLoop, receiveStep_exit, hstop, Bool.false_eq_true,
        ite_false]
      simp [receiveStep_swOut, hstop, ih, List.takeWhile_cons,
        List.countP_cons]
      cases hv : isValidStart f <;> simp [hv, List.replicate_succ]


theorem receiveLoop_stop_cut (st : BridgeState) (pre suf : List SWFrame)
    (fstop : SWFrame) (hpre : ∀ f ∈ pre, isStop f = false)
    (hstop : isStop fstop = true) :
    receiveLoop st (pre ++ fstop :: suf) =
      ((receiveLoop st pre).1,
       (receiveLoop st pre).2.1,
       (receiveLoop st pre).2.2 ++ [OAIMsg.commit, OAIMsg.responseCreate]) := by
  induction pre generalizing st with
  | nil =>
    simp [receiveLoop, receiveStep_of_stop st fstop hstop]
  | cons f rest ih =>
    have hf : isStop f = false := hpre f (by simp)
    have hrest : ∀ g ∈ rest, isStop g = false := fun g hg => hpre g (by simp [hg])
    simp only [List.cons_append, receiveLoop, receiveStep_exit, hf,
      Bool.false_eq_true, ite_false, List.append_eq]
    rw [ih _ hrest]
    simp


/-! ## Characterization of the outbound loop body -/

theorem forwardStep_char (st : BridgeState) (e : OAIEvent) :
    forwardStep st e =
      (deltaPayload e).elim [] (send_audio_to_signalwire st.streamId) := by
  unfold forwardStep deltaPayload
  split_ifs with h1
  · cases hd : (e.delta.getD ⟨none⟩).audio with
    | none => simp [hd]
    | some a => by_cases ha : a = "" <;> simp [hd, ha]
  · simp


theorem receiveStep_swOut_mediaFree (st : BridgeState) (f : SWFrame) :
    mediaFree (receiveStep st f).2.1 = true := by
  rw [receiveStep_swOut]
  split_ifs <;> simp [mediaFree, isMediaOut]


theorem sysStep_inv (st : SysState) (c : Bool) (h : SysInv st) :
    SysInv (sysStep st c) := by
  obtain ⟨h1, h2⟩ := h
  cases c with
  | true =>
    simp only [sysStep, if_pos]
    by_cases hd : st.recvDone
    · simpa [hd] using ⟨h1, h2⟩
    · simp only [hd, ite_false]
      match hin : st.swIn with
      | [] => exact ⟨h1, h2⟩
      | f :: rest =>
        refine ⟨fun hw => ?_, fun hr => ?_⟩
        · exact receiveStep_ready_mono _ f (h1 hw)
        · have hold : st.ready = false := by
            by_contra hc
            have := receiveStep_ready_mono (bridgeOf st) f
              (by simpa using Bool.of_not_eq_false hc)
            simp_all
          have : mediaFree st.swOut = true := h2 hold
          simp [mediaFree, List.all_append] at this ⊢
          exact ⟨this, by
            have := receiveStep_swOut_mediaFree (bridgeOf st) f
            simpa [mediaFree] using this⟩
  | false =>
    unfold SysInv
    simp only [sysStep]
    by_cases hd : st.fwdDone
    · simp only [hd, ite_true]
      exact ⟨h1, h2⟩
    · by_cases hw : st.fwdWaiting
      · by_cases hr : st.ready
        · simp [hd, hw, hr]
        · simp only [hd, hw, hr]
          simp [hw]
          exact h2
      · have hready : st.ready = true := h1 (by simpa using hw)
        cases hin : st.oaiIn with
        | nil => simp [hd, hw, hin, hready]
        | cons e rest => simp [hd, hw, hin, hready]


theorem runSchedule_inv (sched : List Bool) (st : SysState) (h : SysInv st) :
    SysInv (runSchedule st sched) := by
  induction sched generalizing st with
  | nil => exact h
  | cons c cs ih => exact ih _ (sysStep_inv st c h)


theorem stepTask_suffix (steps : List LoopStep) (status : TaskStatus) :
    List.IsSuffix (stepTask steps status).1 steps := by
  match status, steps with
  | .running, [] => exact List.suffix_refl _
  | .running, .ok :: rest => exact List.suffix_cons _ rest
  | .running, .err e :: rest => exact List.suffix_cons _ rest
  | .doneClean, s => exact List.suffix_refl _
  | .doneErr e, s => exact List.suffix_refl _
  | .cancelRequested, s => exact List.suffix_refl _
  | .cancelled, s => exact List.suffix_refl _


theorem stepTask_doneErr (steps : List LoopStep) (status : TaskStatus)
    (e : String) (h : (stepTask steps status).2 = .doneErr e) :
    status = .doneErr e ∨ LoopStep.err e ∈ steps := by
  match status, steps with
  | .running, [] => simp [stepTask] at h
  | .running, .ok :: rest => simp [stepTask] at h
  | .running, .err e' :: rest =>
    simp [stepTask] at h
    exact Or.inr (by simp [h])
  | .doneClean, s => simp [stepTask] at h
  | .doneErr e', s =>
    simp [stepTask] at h
    exact Or.inl (by simp [h])
  | .cancelRequested, s => simp [stepTask] at h
  | .cancelled, s => simp [stepTask] at h


theorem stepTask_running (steps : List LoopStep) (status : TaskStatus)
    (h : (stepTask steps status).2 = .running) : status = .running := by
  match status, steps with
  | .running, _ => rfl
  | .doneClean, s => simp [stepTask] at h
  | .doneErr e', s => simp [stepTask] at h
  | .cancelRequested, s => simp [stepTask] at h
  | .cancelled, s => simp [stepTask] at h


theorem cancelPending_not_running (status : TaskStatus) :
    cancelPending status ≠ .running ∨ status = .running := by
  cases status <;> simp [cancelPending]


theorem runStep_inv (s1 s2 : List LoopStep) (st : RunState) (c : RunChoice)
    (h : RunInv s1 s2 st) : RunInv s1 s2 (runStep st c) := by
  obtain ⟨hs1, hs2, he1, he2, hp⟩ := h
  cases c with
  | task1 =>
    refine ⟨(stepTask_suffix _ _).trans hs1, hs2, ?_, he2, ?_⟩
    · intro e he
      rcases stepTask_doneErr _ _ e he with h' | h'
      · exact he1 e h'
      · exact hs1.subset h'
    · simp only [runStep]
      match hph : st.phase with
      | .waiting => simpa [hph] using hp
      | .afterWait p q =>
        rw [hph] at hp
        exact ⟨hp.1, fun hr => hp.2.1 (stepTask_running _ _ hr), hp.2.2.1,
          hp.2.2.2⟩
      | .finished r =>
        rw [hph] at hp
        exact ⟨hp.1, fun hr => hp.2.1 (stepTask_running _ _ hr), hp.2.2⟩
  | task2 =>
    refine ⟨hs1, (stepTask_suffix _ _).trans hs2, he1, ?_, ?_⟩
    · intro e he
      rcases stepTask_doneErr _ _ e he with h' | h'
      · exact he2 e h'
      · exact hs2.subset h'
    · simp only [runStep]
      match hph : st.phase with
      | .waiting => simpa [hph] using hp
      | .afterWait p q =>
        rw [hph] at hp
        exact ⟨hp.1, hp.2.1, fun hr => hp.2.2.1 (stepTask_running _ _ hr),
          hp.2.2.2⟩
      | .finished r =>
        rw [hph] at hp
        exact ⟨hp.1, hp.2.1, fun hr => hp.2.2.1 (stepTask_running _ _ hr),
          hp.2.2.2⟩
  | sup =>
    match hph : st.phase with
    | .waiting =>
      rw [hph] at hp
      by_cases hdone : st.status1.isDone ∨ st.status2.isDone
      · simp only [runStep, hph, hdone, if_pos]
        refine ⟨hs1, hs2, ?_, ?_, ?_⟩
        · intro e he
          cases hst : st.status1 <;>
            first
            | (simp [cancelPending, hst] at he
               exact he1 e (by rw [hst, he]))
            | simp [cancelPending, hst] at he
        · intro e he
          cases hst : st.status2 <;>
            first
            | (simp [cancelPending, hst] at he
               exact he2 e (by rw [hst, he]))
            | simp [cancelPending, hst] at he
        · refine ⟨hp, ?_, ?_, ?_, ?_⟩
          · cases hst : st.status1 <;> simp [cancelPending]
          · cases hst : st.status2 <;> simp [cancelPending]
          · intro e he
            cases hst : st.status1 <;> simp [snapOf, hst] at he
            exact he1 e (by rw [hst, he])
          · intro e he
            cases hst : st.status2 <;> simp [snapOf, hst] at he
            exact he2 e (by rw [hst, he])
      · simpa [runStep, hph, hdone] using ⟨hs1, hs2, he1, he2, by simpa [hph] using hp⟩
    | .afterWait p q =>
      rw [hph] at hp
      simp only [runStep, hph]
      refine ⟨hs1, hs2, he1, he2, ⟨by simpa using hp.1, hp.2.1, hp.2.2.1, ?_⟩⟩
      intro e he
      unfold firstSnapError at he
      rcases p with _ | (_ | e')
      · simp only [] at he
        rcases q with _ | (_ | e'')
        · simp at he
        · simp at he
        · simp at he
          exact Or.inr (hp.2.2.2.2 e (by rw [he]))
      · simp only [] at he
        rcases q with _ | (_ | e'')
        · simp at he
        · simp at he
        · simp at he
          exact Or.inr (hp.2.2.2.2 e (by rw [he]))
      · simp at he
        exact Or.inl (hp.2.2.2.1 e (by rw [he]))
    | .finished r =>
      rw [hph] at hp
      simpa [runStep, hph] using ⟨hs1, hs2, he1, he2, by simpa [hph] using hp⟩


theorem runExec_inv (s1 s2 : List LoopStep) (cs : List RunChoice)
    (st : RunState) (h : RunInv s1 s2 st) : RunInv s1 s2 (runExec st cs) := by
  induction cs generalizing st with
  | nil => exact h
  | cons c cs ih => exact ih _ (runStep_inv s1 s2 st c h)


theorem initRun_inv (s1 s2 : List LoopStep) : RunInv s1 s2 (initRun s1 s2) :=
  ⟨List.suffix_refl _, List.suffix_refl _, by simp [initRun], by simp [initRun],
    by simp [initRun, RunInv]⟩


/-! ## Claim theorems -/

theorem close_fst (c : OpenAIRealtimeClient) : (close c).1 = clientNew := by
  match hc : c.connection with
  | none => simp [close, hc, clientNew]
  | some h => by_cases hcl : h.closed <;> simp [close, hc, hcl, clientNew]

/-- C1 (amended): under every interleaving of the two loops, no media
frame has been sent to the telephony peer while the session is not
ready; but an audio delta delivered by the connection before readiness
is not dropped — it stays queued on the connection while the forwarder
waits and is forwarded once the session becomes ready (see the
counterexample to the dropped-not-queued part of the claim). -/
theorem C1_no_media_before_ready (swIn : List SWFrame)
    (oaiIn : List OAIEvent) (sched : List Bool)
    (h : (runSchedule (initSys swIn oaiIn) sched).ready = false) :
    mediaFree (runSchedule (initSys swIn oaiIn) sched).swOut = true := by
  have hinv : SysInv (initSys swIn oaiIn) := by
    constructor
    · intro hw
      simp [initSys] at hw
    · intro _
      rfl
  exact (runSchedule_inv sched _ hinv).2 h

/-- Witness for C1: a schedule that never makes the session ready has a
media-free telephony output. -/
theorem C1_no_media_before_ready_witness :
    mediaFree (runSchedule (initSys [startFrame "s1"] [deltaEvent "QUJD"])
        [false, false]).swOut = true :=
  C1_no_media_before_ready [startFrame "s1"] [deltaEvent "QUJD"]
    [false, false] (by decide)

/-- Counterexample to C1 as stated: an audio delta already delivered by
the AI connection before the session is ready is not silently dropped.
The forwarder is suspended in the readiness wait, the delta stays queued
on the connection, and after the start event makes the session ready the
very same delta is forwarded to the telephony peer as a media frame. -/
theorem C1_early_delta_is_delivered_not_dropped :
    (initSys [startFrame "s1"] [deltaEvent "ZFJD"]).ready = false ∧
    (runSchedule (initSys [startFrame "s1"] [deltaEvent "ZFJD"])
        [false, true, false, false]).swOut =
      [SWOut.ready, SWOut.media "s1" "ZFJD"] :=
  ⟨rfl, rfl⟩

/-- C2 (amended): on every schedule on which `run` exits, the realtime
client was closed exactly once on that exit path, neither loop is left
running without at least a pending cancellation request, and any
re-raised error was raised by one of the two loops (so a clean finish of
both loops re-raises nothing); the re-raise may however happen before
the cancelled loop has stopped (see the counterexample). -/
theorem C2_run_supervisor_contract (s1 s2 : List LoopStep)
    (cs : List RunChoice) (r : Option String)
    (h : (runExec (initRun s1 s2) cs).phase = SupPhase.finished r) :
    (runExec (initRun s1 s2) cs).closeCalls = 1 ∧
    (runExec (initRun s1 s2) cs).status1 ≠ TaskStatus.running ∧
    (runExec (initRun s1 s2) cs).status2 ≠ TaskStatus.running ∧
    ∀ e, r = some e → LoopStep.err e ∈ s1 ∨ LoopStep.err e ∈ s2 := by
  have hinv := runExec_inv s1 s2 cs _ (initRun_inv s1 s2)
  obtain ⟨-, -, -, -, hp⟩ := hinv
  rw [h] at hp
  exact hp

/-- Witness for C2 on a run where the receiver errs, the forwarder is
cancelled and has stopped, and the supervisor exits re-raising. -/
theorem C2_run_supervisor_contract_witness :
    (runExec (initRun [LoopStep.err "late"] [LoopStep.ok])
        [RunChoice.task1, RunChoice.sup, RunChoice.task2,
          RunChoice.sup]).closeCalls = 1 ∧
    (LoopStep.err "late" ∈ [LoopStep.err "late"] ∨
      LoopStep.err "late" ∈ [LoopStep.ok]) := by
  have T := C2_run_supervisor_contract [LoopStep.err "late"] [LoopStep.ok]
    [RunChoice.task1, RunChoice.sup, RunChoice.task2, RunChoice.sup]
    (some "late") (by decide)
  exact ⟨T.1, T.2.2.2 "late" rfl⟩

/-- Counterexample to C2 as stated: when the receiver loop fails first,
`run` requests cancellation of the forwarder and re-raises the receiver
error without joining the cancelled task (the code cancels the pending
task but never awaits it), so the error is re-raised and the client
closed while the other loop has not yet stopped. -/
theorem C2_reraise_before_other_loop_stopped :
    (runExec (initRun [LoopStep.err "boom"] [LoopStep.ok, LoopStep.ok])
        [RunChoice.task1, RunChoice.sup, RunChoice.sup]).phase =
      SupPhase.finished (some "boom") ∧
    (runExec (initRun [LoopStep.err "boom"] [LoopStep.ok, LoopStep.ok])
        [RunChoice.task1, RunChoice.sup, RunChoice.sup]).status2.stopped =
      false ∧
    (runExec (initRun [LoopStep.err "boom"] [LoopStep.ok, LoopStep.ok])
        [RunChoice.task1, RunChoice.sup, RunChoice.sup]).closeCalls = 1 :=
  ⟨rfl, rfl, rfl⟩

/-- C3: after the session is ready with stream identifier `s`, the
outbound loop sends exactly one media frame per audio delta carrying a
non-empty chunk, stamped with `s` and carrying exactly that chunk, in
the order the deltas were received, and nothing for any other event. -/
theorem C3_delta_to_media_frames (s : String) (hs : s ≠ "")
    (events : List OAIEvent) :
    forwardLoop ⟨some s, true⟩ events =
      (events.filterMap deltaPayload).map (SWOut.media s) := by
  induction events with
  | nil => rfl
  | cons e rest ih =>
    cases hd : deltaPayload e <;>
      simp [forwardLoop, forwardStep_char, hd, send_audio_to_signalwire, hs, ih]

/-- Witness for C3: the end-to-end scenario of the specification. -/
theorem C3_delta_to_media_frames_witness :
    forwardLoop ⟨some "s1", true⟩ [deltaEvent "ZFJD"] =
      ([deltaEvent "ZFJD"].filterMap deltaPayload).map (SWOut.media "s1") :=
  C3_delta_to_media_frames "s1" (by decide) [deltaEvent "ZFJD"]

/-- C4: the messages the inbound loop sends to the AI service are
exactly one append per media event with a truthy nested payload, in
arrival order with no reordering or batching, followed only by the stop
flush — and each such append is exactly what one `send_audio_chunk`
call with `end_of_input = false` sends. -/
theorem C4_media_to_appends_in_order (st : BridgeState)
    (frames : List SWFrame) :
    (receiveLoop st frames).2.2 = inboundSends frames ∧
      ∀ a, sendAudioChunkMsgs a false = [OAIMsg.append a] :=
  ⟨receiveLoop_oai_eq st frames, fun _ => rfl⟩

/-- C5: on the first `stop` or `close` event the inbound loop sends
exactly one commit and one response-create pair to the AI service and
exits: the run over any continuation equals the run over the prefix
before the stop plus the single flush pair, with the session state and
telephony output unchanged by the stop and the frames after it never
processed. -/
theorem C5_stop_flushes_once_and_exits (st : BridgeState)
    (pre suf : List SWFrame) (fstop : SWFrame)
    (hpre : ∀ f ∈ pre, isStop f = false) (hstop : isStop fstop = true) :
    receiveLoop st (pre ++ fstop :: suf) =
      ((receiveLoop st pre).1, (receiveLoop st pre).2.1,
        (receiveLoop st pre).2.2 ++ [OAIMsg.commit, OAIMsg.responseCreate]) :=
  receiveLoop_stop_cut st pre suf fstop hpre hstop

/-- Witness for C5: the end-to-end scenario of the specification, with
an extra media frame after the stop that is never processed. -/
theorem C5_stop_flushes_once_and_exits_witness :
    receiveLoop bridgeNew
        ([startFrame "s1", mediaFrame "QUJD"] ++
          stopFrame :: [mediaFrame "WFla"]) =
      ((receiveLoop bridgeNew [startFrame "s1", mediaFrame "QUJD"]).1,
       (receiveLoop bridgeNew [startFrame "s1", mediaFrame "QUJD"]).2.1,
       (receiveLoop bridgeNew [startFrame "s1", mediaFrame "QUJD"]).2.2 ++
         [OAIMsg.commit, OAIMsg.responseCreate]) :=
  C5_stop_flushes_once_and_exits bridgeNew
    [startFrame "s1", mediaFrame "QUJD"] [mediaFrame "WFla"] stopFrame
    (by decide) (by decide)

/-- C6 (amended): every start event with a truthy identifier under
either accepted key transitions the session to Ready and sends exactly
one ready frame at that event; over a whole call the inbound loop sends
exactly one ready frame per valid start processed before the stop — so
exactly one in a call containing exactly one valid start — and no other
frame. -/
theorem C6_ready_once_per_valid_start :
    (∀ (st : BridgeState) (f : SWFrame), isValidStart f = true →
      ((receiveStep st f).1.ready = true ∧
        (receiveStep st f).2.1 = [SWOut.ready])) ∧
    ∀ (st : BridgeState) (frames : List SWFrame),
      (receiveLoop st frames).2.1 =
        List.replicate
          ((frames.takeWhile fun f => !isStop f).countP fun f =>
            isValidStart f)
          SWOut.ready := by
  constructor
  · intro st f hf
    have h12 : eventType f = some "start" ∧ truthy (frameStreamId f) = true := by
      simpa [isValidStart] using hf
    constructor
    · rw [receiveStep_state, if_pos h12.1, if_pos h12.2]
    · rw [receiveStep_swOut, if_pos hf]
  · exact receiveLoop_swOut_eq

/-- Witness for C6 at a concrete valid start. -/
theorem C6_ready_once_per_valid_start_witness :
    (receiveStep bridgeNew (startFrame "s1")).1.ready = true ∧
    (receiveStep bridgeNew (startFrame "s1")).2.1 = [SWOut.ready] :=
  C6_ready_once_per_valid_start.1 bridgeNew (startFrame "s1") (by decide)

/-- Counterexample to C6 as stated: a call whose inbound stream carries
two valid start events gets two ready frames, so the whole-call count of
ready frames is not always exactly one. -/
theorem C6_two_starts_two_ready_frames :
    (receiveLoop bridgeNew [startFrame "s1", startFrame "s2"]).2.1 =
      [SWOut.ready, SWOut.ready] :=
  rfl

/-- C7: evaluation of the code at the failing input of the claim.  A
valid start stores stream id s1 and sets readiness; a second start event
lacking an identifier then resets the stored stream id to none through
the unconditional assignment the loop performs before the validation in
`_on_start`, while readiness stays set.  The session state is therefore
changed by a start without identifier, and the stream id field is
written at every start event rather than at most once per run. -/
theorem C7_start_without_id_clobbers_stream_id :
    (receiveLoop bridgeNew [startFrame "s1", startFrameNoId]).1 =
      { streamId := none, ready := true } ∧
    (receiveLoop bridgeNew [startFrame "s1"]).1 =
      { streamId := some "s1", ready := true } :=
  ⟨rfl, rfl⟩

/-- C8: `send_audio_chunk` on a connected client sends exactly one
append carrying the chunk, plus one commit followed by one
response-create exactly when `end_of_input` is true; on a client that is
not connected it fails with the not-connected error and sends
nothing (the error is raised by the first `send_json`, before any
message goes out). -/
theorem C8_send_audio_chunk_contract (c : OpenAIRealtimeClient)
    (a : String) :
    (is_connected c = true →
      send_audio_chunk c a false = .ok [OAIMsg.append a] ∧
      send_audio_chunk c a true =
        .ok [OAIMsg.append a, OAIMsg.commit, OAIMsg.responseCreate]) ∧
    (is_connected c = false →
      ∀ eoi, send_audio_chunk c a eoi = .error notConnectedError) := by
  constructor
  · intro h
    constructor <;> simp [send_audio_chunk_connected c h, sendAudioChunkMsgs]
  · intro h eoi
    cases eoi <;>
      simp [send_audio_chunk, send_json, h, Bind.bind, Except.bind]

/-- Witness for C8 at a connected and at a never-connected client. -/
theorem C8_send_audio_chunk_contract_witness :
    send_audio_chunk clientConn "QUJD" false = .ok [OAIMsg.append "QUJD"] ∧
    send_audio_chunk clientNew "QUJD" true = .error notConnectedError :=
  ⟨((C8_send_audio_chunk_contract clientConn "QUJD").1 (by decide)).1,
   (C8_send_audio_chunk_contract clientNew "QUJD").2 (by decide) true⟩

/-- C9: `close` is idempotent: any close issues at most one close call
to the underlying connection, a second close (including on an
already-closed or never-opened connection) issues none and leaves the
state fixed, and the method has no failure path. -/
theorem C9_close_idempotent (c : OpenAIRealtimeClient) :
    (close c).2 ≤ 1 ∧ (close (close c).1).2 = 0 ∧
      (close (close c).1).1 = (close c).1 := by
  match hc : c.connection with
  | none => simp [close, hc]
  | some h => by_cases hcl : h.closed <;> simp [close, hc, hcl]

/-- C10: iterating the event sequence of the realtime client when the client
is not connected — before `connect` or after `close` — raises the
not-connected error immediately instead of yielding an empty
sequence. -/
theorem C10_responses_require_connection :
    (∀ incoming, responses clientNew incoming = .error notConnectedError) ∧
    (∀ (c : OpenAIRealtimeClient) incoming,
      responses (close c).1 incoming = .error notConnectedError) ∧
    ∀ incoming, responses clientNew incoming ≠ .ok [] := by
  refine ⟨fun incoming => rfl, fun c incoming => ?_, fun incoming => by
    simp [responses, clientNew, is_connected]⟩
  rw [close_fst c]
  rfl

end VoiceAgent
